import Mathlib

/-!
Verification of the job-matcher service: a shallow embedding of the
in-process matching logic (src/matchingLogic.js) and of the bulk
set-oriented master matching query (src/index.js), together with theorems
settling the specification claims about them.

Conventions of the embedding:
* JS strings are Lean `String`, JS `undefined`/`null` are `Option.none`.
* A JS comparison with `undefined` (which is `NaN`-false in JS) is modelled
  by `jsLeOpt`/`jsGeOpt` returning `false` on `none`.
* A JS `TypeError` (property access on `undefined`) is modelled by
  `Except.error ()`; functions that cannot throw return plain `Bool`.
* SQL `NULL` is `Option.none`; `IFNULL(a, [])` is `ifnull`; three-valued
  SQL comparisons with `NULL` are modelled by the branch they actually
  take (a `NULL` comparison is never satisfied).
* The regexes of the normalizer are embedded as leftmost-match scanners
  over `List Char` with the same greedy semantics.
-/

namespace JobMatcher

/-! ### Character and string helpers (JS string operations) -/

/-- JS word character class `\w` = `[A-Za-z0-9_]`. -/
def isWordChar (c : Char) : Bool := c.isAlphanum || c == '_'

/-- Numeric value of a decimal digit character. -/
def digitVal (c : Char) : Nat := c.toNat - 48

/-- `parseInt` on a list of decimal digit characters. -/
def natOfDigits (l : List Char) : Nat := l.foldl (fun a c => a * 10 + digitVal c) 0

/-- Whether the first list is an initial segment of the second. -/
def startsWithL : List Char → List Char → Bool
  | [], _ => true
  | _ :: _, [] => false
  | p :: ps, c :: cs => p == c && startsWithL ps cs

/-- JS `String.prototype.includes`: substring containment. -/
def containsSub (pat : List Char) : List Char → Bool
  | [] => pat.isEmpty
  | c :: tl => startsWithL pat (c :: tl) || containsSub pat tl

/-- JS `String.prototype.trim`: drop whitespace at both ends. -/
def trimL (l : List Char) : List Char :=
  ((l.dropWhile Char.isWhitespace).reverse.dropWhile Char.isWhitespace).reverse

/-- JS `String.prototype.toLowerCase` (ASCII). -/
def lowerL (l : List Char) : List Char := l.map Char.toLower

/-- JS `replace(/\s+/g, '_')`: every maximal whitespace run becomes one underscore.
The boolean flag records whether the previous character was whitespace. -/
def collapseWsAux : Bool → List Char → List Char
  | _, [] => []
  | inRun, c :: tl =>
    if c.isWhitespace then
      if inRun then collapseWsAux true tl else '_' :: collapseWsAux true tl
    else c :: collapseWsAux false tl

/-- The canonical-token transform of the source:
`s.trim().toLowerCase().replace(/\s+/g, '_')`. -/
def normalizeToken (s : String) : String :=
  String.mk (collapseWsAux false (lowerL (trimL s.toList)))

/-- `s.toLowerCase()` on a whole string. -/
def lowerStr (s : String) : String := String.mk (lowerL s.toList)

/-- `s.trim()` on a whole string. -/
def trimStr (s : String) : String := String.mk (trimL s.toList)

/-- JS `split(',')` worker; the accumulator holds the current segment reversed. -/
def splitCommaAux : List Char → List Char → List (List Char)
  | cur, [] => [cur.reverse]
  | cur, c :: tl =>
    if c == ',' then cur.reverse :: splitCommaAux [] tl else splitCommaAux (c :: cur) tl

/-- JS `String.prototype.split(',')` (keeps empty segments, as in JS). -/
def splitComma (s : String) : List String := (splitCommaAux [] s.toList).map String.mk

/-! ### The three experience-text regexes of normalizeJob

`/(\d+)\s*-\s*(\d+)/`, `/(\d+)\+/` and `/\b(\d)\b/`, each evaluated as in
JS `String.prototype.match` without the global flag: the leftmost position
where the whole pattern matches wins, and `\d+` is greedy (for these
patterns greedy matching never needs to backtrack, because after giving a
digit back the next required character would have to be both a digit and a
non-digit). -/

/-- Try `(\d+)\s*-\s*(\d+)` anchored at the head of the list. -/
def rangeAt (l : List Char) : Option (Nat × Nat) :=
  match l.span Char.isDigit with
  | ([], _) => none
  | (ds, rest) =>
    match rest.dropWhile Char.isWhitespace with
    | '-' :: rest2 =>
      match (rest2.dropWhile Char.isWhitespace).span Char.isDigit with
      | ([], _) => none
      | (ds2, _) => some (natOfDigits ds, natOfDigits ds2)
    | _ => none

/-- Leftmost match of `(\d+)\s*-\s*(\d+)`, with the two captured numbers. -/
def findRange : List Char → Option (Nat × Nat)
  | [] => none
  | c :: tl =>
    match rangeAt (c :: tl) with
    | some r => some r
    | none => findRange tl

/-- Try `(\d+)\+` anchored at the head of the list. -/
def plusAt (l : List Char) : Option Nat :=
  match l.span Char.isDigit with
  | ([], _) => none
  | (ds, rest) =>
    match rest with
    | '+' :: _ => some (natOfDigits ds)
    | _ => none

/-- Leftmost match of `(\d+)\+`, with the captured number. -/
def findPlus : List Char → Option Nat
  | [] => none
  | c :: tl =>
    match plusAt (c :: tl) with
    | some n => some n
    | none => findPlus tl

/-- Scanner for `\b(\d)\b`; `prev` is the character before the current head. -/
def findSingleAux : Option Char → List Char → Option Nat
  | _, [] => none
  | prev, c :: tl =>
    if c.isDigit
        && (match prev with | none => true | some p => !isWordChar p)
        && (match tl with | [] => true | d :: _ => !isWordChar d)
    then some (digitVal c)
    else findSingleAux (some c) tl

/-- Leftmost match of `\b(\d)\b`: a single digit with word boundaries. -/
def findSingle (l : List Char) : Option Nat := findSingleAux none l

/-! ### Data model -/

/-- JS truthiness of an optional string: `undefined`, `null` and the empty
string are falsy. -/
def jsTruthyS : Option String → Bool
  | none => false
  | some s => s != ""

/-- A raw row from the job source, free-text fields as in the source. -/
structure RawJob where
  source_url : Option String
  title : Option String
  url : Option String
  locations : Option String
  job_scope : Option String
  experience_level : Option String
  leadership_level : Option String

/-- The canonical normalized job produced by `normalizeJob`. -/
structure NormalizedJob where
  id : Option String
  title : Option String
  url : Option String
  locations : List String
  domains : List String
  minExp : Nat
  maxExp : Nat
  isStudentJob : Bool
  leadershipLevel : Option String

/-- The user preference object read from the user-profile store. -/
structure UserPrefs where
  fullName : Option String
  status : Option String
  minExperience : Option Int
  maxExperience : Option Int
  degree : Option String
  managementInterest : Option String
  managementLevel : Option (List String)
  domains : Option (List String)
  locations : Option (List String)

/-- The fixed domain vocabulary of constants.js (`flattenedJobTitles`),
as (id, title) pairs in declaration order. -/
def flattenedJobTitles : List (String × String) := [
  ("software", "Software"), ("hardware", "Hardware"), ("firmware", "Firmware"),
  ("devops", "DevOps"), ("production_engineering", "Production Engineering"),
  ("sre", "SRE"), ("qa", "QA"), ("automation", "Automation"), ("systems", "Systems"),
  ("cybersecurity", "Cybersecurity"), ("mechanical", "Mechanical"), ("security", "Security"),
  ("research", "Research"), ("data_engineering", "Data Engineering"),
  ("data_science", "Data Science"), ("data_analytics_bi", "Data Analytics / BI"),
  ("machine_learning_ai", "Machine Learning / AI"),
  ("product_management", "Product Management"), ("project_management", "Project Management"),
  ("program_management", "Program Management"), ("business_analysis", "Business Analysis"),
  ("business_development", "Business Development"), ("operations", "Operations"),
  ("customer_success_support", "Customer Success / Support"),
  ("sales", "Sales"), ("marketing", "Marketing"), ("finance", "Finance"), ("legal", "Legal"),
  ("hr_people", "HR / People"), ("it_sysadmin", "IT / SysAdmin"),
  ("procurement_supply_chain", "Procurement / Supply Chain"),
  ("product_design", "Product Design"), ("ux_ui_design", "UX/UI Design"),
  ("visual_creative_design", "Visual / Creative Design")]

/-- Case-insensitive lookup of a trimmed raw scope token in the vocabulary:
`flattenedJobTitles.find(job => job.title.toLowerCase() === scope.toLowerCase())`,
yielding the canonical id of the first hit. -/
def resolveScope (scope : String) : Option String :=
  (flattenedJobTitles.find? (fun p => lowerStr p.2 == lowerStr scope)).map Prod.fst

/-- `normalizeJob` of src/matchingLogic.js: locations and leadership get the
canonical-token transform, scopes resolve through the vocabulary (unresolved
tokens are dropped), and the experience text goes through the degree-marker
check and the priority-ordered regex chain with defaults 0 and 99. -/
def normalizeJob (r : RawJob) : NormalizedJob :=
  let locs :=
    if jsTruthyS r.locations then (splitComma (r.locations.getD "")).map normalizeToken else []
  let doms :=
    if jsTruthyS r.job_scope then
      ((splitComma (r.job_scope.getD "")).map trimStr).filterMap resolveScope
    else []
  let expData :=
    match r.experience_level with
    | none => (0, 99, false)
    | some s =>
      if s = "" then (0, 99, false)
      else
        let cs := s.toList
        let stud := containsSub ("B.Sc".toList) cs || containsSub ("M.Sc".toList) cs
        match findRange cs with
        | some (lo, hi) => (lo, hi, stud)
        | none =>
          match findPlus cs with
          | some n => (n, 99, stud)
          | none =>
            match findSingle cs with
            | some n => (n, n, stud)
            | none => (0, 99, stud)
  let lead :=
    if jsTruthyS r.leadership_level then some (normalizeToken (r.leadership_level.getD ""))
    else none
  ⟨r.source_url, r.title, r.url, locs, doms, expData.1, expData.2.1, expData.2.2, lead⟩

/-! ### The four in-process criteria evaluators -/

/-- JS `a <= b` where `a` may be `undefined` (then the comparison is false). -/
def jsLeOpt (a : Option Int) (b : Int) : Bool :=
  match a with
  | none => false
  | some x => decide (x ≤ b)

/-- JS `a >= b` where `a` may be `undefined` (then the comparison is false). -/
def jsGeOpt (a : Option Int) (b : Int) : Bool :=
  match a with
  | none => false
  | some x => decide (b ≤ x)

/-- `matchesExperience` of src/matchingLogic.js. -/
def matchesExperience (u : UserPrefs) (j : NormalizedJob) : Bool :=
  if u.status == some "student_position" then j.isStudentJob
  else jsLeOpt u.minExperience (Int.ofNat j.maxExp) && jsGeOpt u.maxExperience (Int.ofNat j.minExp)

/-- `matchesDomains` of src/matchingLogic.js. -/
def matchesDomains (userDomains jobDomains : Option (List String)) : Bool :=
  match userDomains with
  | none => true
  | some ud =>
    if ud.isEmpty then true
    else
      match jobDomains with
      | none => true
      | some jd =>
        if jd.isEmpty then true
        else ud.any (fun d => jd.contains d)

/-- `matchesLocation` of src/matchingLogic.js. -/
def matchesLocation (userLocations jobLocations : Option (List String)) : Bool :=
  match userLocations with
  | none => true
  | some ul =>
    if ul.isEmpty then true
    else
      match jobLocations with
      | none => true
      | some jl =>
        if jl.isEmpty then true
        else if ul.contains "remote" || jl.contains "remote" then true
        else ul.any (fun x => jl.contains x)

/-- `matchesLeadership` of src/matchingLogic.js. The calls
`userPrefs.managementLevel.includes(...)` throw a TypeError when
`managementLevel` is absent; this is the `Except.error ()` case. -/
def matchesLeadership (u : UserPrefs) (j : NormalizedJob) : Except Unit Bool :=
  if !(jsTruthyS u.managementInterest) then Except.ok (!(jsTruthyS j.leadershipLevel))
  else if u.managementInterest == some "no_management" then
    Except.ok (!(jsTruthyS j.leadershipLevel))
  else if u.managementInterest == some "management_only" then
    if !(jsTruthyS j.leadershipLevel) then Except.ok false
    else
      match u.managementLevel with
      | none => Except.error ()
      | some ls => Except.ok (ls.contains (j.leadershipLevel.getD ""))
  else if u.managementInterest == some "management_and_individual" then
    if !(jsTruthyS j.leadershipLevel) then Except.ok true
    else
      match u.managementLevel with
      | none => Except.error ()
      | some ls => Except.ok (ls.contains (j.leadershipLevel.getD ""))
  else Except.ok true

/-- `isMatch` of src/matchingLogic.js after normalization: the diagnostic
logging dereferences `user.domains.join` and `user.locations.join` before
any evaluator runs, so an absent field there throws. Then the four
evaluators run with short-circuit AND in the order of the source:
domains, experience, location, leadership. -/
def isMatchN (u : UserPrefs) (j : NormalizedJob) : Except Unit Bool :=
  match u.domains, u.locations with
  | none, _ => Except.error ()
  | some _, none => Except.error ()
  | some _, some _ =>
    if !(matchesDomains u.domains (some j.domains)) then Except.ok false
    else if !(matchesExperience u j) then Except.ok false
    else if !(matchesLocation u.locations (some j.locations)) then Except.ok false
    else matchesLeadership u j

/-- `isMatch` of src/matchingLogic.js: normalize once, then evaluate. -/
def isMatch (u : UserPrefs) (r : RawJob) : Except Unit Bool :=
  isMatchN u (normalizeJob r)

/-! ### The master matching query (src/index.js, MASTER_MATCHING_QUERY)

The query is embedded per clause. A row of the UserPreferences CTE is
`SqlUserRow`; a row of the external `clean_jobs_view` is `SqlJob`. The
`TRIM(x, DOUBLE_QUOTE)` calls in the query strip the JSON-export quoting
artifact and are modelled as identity on already-unquoted strings. -/

/-- A row of the UserPreferences CTE (after LEAST/GREATEST normalization:
`min_experience` and `max_experience` hold the already-normalized values). -/
structure SqlUserRow where
  status : Option String
  min_experience : Option Int
  max_experience : Option Int
  degree : Option String
  management_interest : Option String
  management_level : Option (List String)
  domains : Option (List String)
  locations : Option (List String)

/-- A row of the external clean_jobs_view consumed by the query. -/
structure SqlJob where
  is_student_job : Option Bool
  required_degrees : Option (List String)
  experience_levels : Option (List Int)
  locations : Option (List String)
  domains : Option (List String)
  leadership_levels : Option (List String)

/-- SQL `IFNULL(arr, [])`. -/
def ifnull {α : Type} (o : Option (List α)) : List α := o.getD []

/-- BigQuery `LEAST(a, b)`: `NULL` if either argument is `NULL`. -/
def sqlLeast (a b : Option Int) : Option Int :=
  match a, b with
  | some x, some y => some (min x y)
  | _, _ => none

/-- BigQuery `GREATEST(a, b)`: `NULL` if either argument is `NULL`. -/
def sqlGreatest (a b : Option Int) : Option Int :=
  match a, b with
  | some x, some y => some (max x y)
  | _, _ => none

/-- FILTER 1 of the query (Experience/Status): the three status disjuncts.
A `NULL` scalar never satisfies an SQL comparison or `IN`, which the
`Option` matches reflect; `COALESCE(min, 0)` and `COALESCE(max, 100)` are
the `getD` defaults of the experienced branch. -/
def sqlFilter1 (u : SqlUserRow) (j : SqlJob) : Bool :=
  (u.status == some "student_position" && j.is_student_job == some true
    && (match u.degree with
        | none => false
        | some d => (ifnull j.required_degrees).contains d))
  || (u.status == some "no_experience_position" && (ifnull j.experience_levels).contains 0)
  || (u.status == some "experience_position"
      && (ifnull j.experience_levels).any (fun lvl =>
            decide (u.min_experience.getD 0 ≤ lvl) && decide (lvl ≤ u.max_experience.getD 100)))

/-- FILTER 2 of the query (Location): EXISTS over the user locations. -/
def sqlFilter2 (u : SqlUserRow) (j : SqlJob) : Bool :=
  (ifnull u.locations).any (fun loc =>
    (ifnull j.locations).contains loc || loc == "remote" || (ifnull j.locations).contains "remote")

/-- FILTER 3 of the query (Domain): NULL or empty user domains pass,
otherwise EXISTS a shared domain. -/
def sqlFilter3 (u : SqlUserRow) (j : SqlJob) : Bool :=
  u.domains == none || (ifnull u.domains).isEmpty
  || (ifnull u.domains).any (fun d => (ifnull j.domains).contains d)

/-- The guard of the first WHEN of FILTER 4: `users.status != 'experience_position'`
is only satisfied when the status is present and different (a NULL
comparison does not take the branch). -/
def sqlStatusNotExperience (status : Option String) : Bool :=
  match status with
  | none => false
  | some s => s != "experience_position"

/-- FILTER 4 of the query (Leadership/Management): the CASE expression. -/
def sqlFilter4 (status management_interest : Option String)
    (management_level leadership_levels : Option (List String)) : Bool :=
  if sqlStatusNotExperience status then (ifnull leadership_levels).isEmpty
  else if management_interest == some "no_management" then (ifnull leadership_levels).isEmpty
  else if management_interest == some "management_only" then
    !(ifnull leadership_levels).isEmpty
      && (ifnull management_level).any (fun l => (ifnull leadership_levels).contains l)
  else if management_interest == some "management_and_individual" then
    (ifnull leadership_levels).isEmpty
      || (ifnull management_level).any (fun l => (ifnull leadership_levels).contains l)
  else true

/-- The full WHERE clause of the PotentialMatches CTE for one (user, job) pair. -/
def sqlPotentialMatch (u : SqlUserRow) (j : SqlJob) : Bool :=
  sqlFilter1 u j && sqlFilter2 u j && sqlFilter3 u j
    && sqlFilter4 u.status u.management_interest u.management_level j.leadership_levels

/-- The final SELECT of the master query (src/index.js): notify when the
pair was never sent, or when `DATE_DIFF(CURRENT_DATE, DATE(last_sent), DAY)`
(passed here as `daysSinceLastSent`) strictly exceeds the per-status
threshold. -/
def sqlShouldNotify (status : Option String) (daysSinceLastSent : Option Int) : Bool :=
  match daysSinceLastSent with
  | none => true
  | some d =>
    ((status == some "student_position" || status == some "no_experience_position")
        && decide (d > 3))
    || (status == some "experience_position" && decide (d > 14))

/-- The HAVING clause of the older query variant (src/unnamed/part_002,
final SELECT): same structure with `MAX(hist.sent_timestamp)` as the most
recent send. -/
def sqlShouldNotifyAlt (status : Option String) (daysSinceLastSent : Option Int) : Bool :=
  match daysSinceLastSent with
  | none => true
  | some d =>
    ((status == some "student_position" || status == some "no_experience_position")
        && decide (d > 3))
    || (status == some "experience_position" && decide (d > 14))

/-! ### Correspondence between the two representations

The in-process pipeline evaluates a `(UserPrefs, NormalizedJob)` pair; the
bulk query evaluates a `(SqlUserRow, SqlJob)` pair. `sqlRowOf` is the
UserPreferences CTE applied to the same preference record (JSON extraction
and unquoting as identity, LEAST/GREATEST on the experience bounds).
`sqlJobOf` maps a normalized job to the view row that presents the same
job: same location, domain and leadership sets, and the discrete
experience-level set that enumerates the normalized interval. -/

/-- The UserPreferences CTE on a preference record. -/
def sqlRowOf (u : UserPrefs) : SqlUserRow :=
  ⟨u.status,
   sqlLeast u.minExperience u.maxExperience,
   sqlGreatest u.minExperience u.maxExperience,
   u.degree, u.managementInterest, u.managementLevel, u.domains, u.locations⟩

/-- The contiguous list of integers from `lo` to `hi` inclusive. -/
def intervalList (lo hi : Int) : List Int :=
  (List.range (hi + 1 - lo).toNat).map (fun k => lo + Int.ofNat k)

/-- The leadership-level set of a normalized job: empty when the level is
absent (or the falsy empty string), else the singleton. -/
def leadershipListOf (j : NormalizedJob) : List String :=
  match j.leadershipLevel with
  | none => []
  | some lv => if lv = "" then [] else [lv]

/-- The clean_jobs_view row presenting the same job as a normalized job. -/
def sqlJobOf (j : NormalizedJob) : SqlJob :=
  ⟨some j.isStudentJob, some [],
   some (intervalList (Int.ofNat j.minExp) (Int.ofNat j.maxExp)),
   some j.locations, some j.domains, some (leadershipListOf j)⟩

/-! ### Shared helper lemmas -/

/-- Two booleans agreeing as propositions are equal. -/
theorem bool_eq_of_iff {a b : Bool} (h : a = true ↔ b = true) : a = b := by
  cases a <;> cases b <;> simp_all

/-- Membership in the contiguous integer list. -/
theorem mem_intervalList {lo hi x : Int} : x ∈ intervalList lo hi ↔ lo ≤ x ∧ x ≤ hi := by
  unfold intervalList
  simp only [List.mem_map, List.mem_range, Int.ofNat_eq_natCast]
  constructor
  · rintro ⟨k, hk, rfl⟩
    omega
  · rintro ⟨h1, h2⟩
    exact ⟨(x - lo).toNat, by omega, by omega⟩

/-- The EXISTS of FILTER 1 over a contiguous level list is interval overlap. -/
theorem intervalList_overlap {a b lo hi : Int} (hab : a ≤ b) (hlh : lo ≤ hi) :
    ((intervalList lo hi).any (fun x => decide (a ≤ x) && decide (x ≤ b)) = true)
      ↔ (a ≤ hi ∧ lo ≤ b) := by
  rw [List.any_eq_true]
  constructor
  · rintro ⟨x, hx, hpx⟩
    rw [mem_intervalList] at hx
    simp only [Bool.and_eq_true, decide_eq_true_eq] at hpx
    omega
  · rintro ⟨h1, h2⟩
    refine ⟨max a lo, ?_, ?_⟩
    · rw [mem_intervalList]; omega
    · simp only [Bool.and_eq_true, decide_eq_true_eq]; omega

/-- The leadership-level list of a normalized job is empty exactly when the
normalized level is JS-falsy. -/
theorem leadershipListOf_isEmpty (j : NormalizedJob) :
    (leadershipListOf j).isEmpty = !(jsTruthyS j.leadershipLevel) := by
  unfold leadershipListOf jsTruthyS
  cases h : j.leadershipLevel with
  | none => rfl
  | some lv =>
    by_cases hlv : lv = "" <;> simp [hlv]

/-- With a present management-level list, `matchesLeadership` never throws. -/
theorem matchesLeadership_ok (u : UserPrefs) (j : NormalizedJob) (ls : List String)
    (h : u.managementLevel = some ls) : ∃ b : Bool, matchesLeadership u j = Except.ok b := by
  unfold matchesLeadership
  rw [h]
  split
  · exact ⟨_, rfl⟩
  · split
    · exact ⟨_, rfl⟩
    · split
      · split
        · exact ⟨_, rfl⟩
        · exact ⟨_, rfl⟩
      · split
        · split
          · exact ⟨_, rfl⟩
          · exact ⟨_, rfl⟩
        · exact ⟨_, rfl⟩

/-- The experienced branch of the in-process evaluator with both bounds
present is the raw interval test. -/
theorem matchesExperience_expPos (u : UserPrefs) (j : NormalizedJob) (a b : Int)
    (hst : u.status = some "experience_position")
    (ha : u.minExperience = some a) (hb : u.maxExperience = some b) :
    matchesExperience u j = true ↔ (a ≤ Int.ofNat j.maxExp ∧ Int.ofNat j.minExp ≤ b) := by
  have e : (u.status == some "student_position") = false := by rw [hst]; decide
  simp [matchesExperience, e, ha, hb, jsLeOpt, jsGeOpt]

/-- The experienced branch of FILTER 1 over a contiguous level set is
interval overlap of the coalesced user bounds with the level range. -/
theorem sqlFilter1_expPos (u : SqlUserRow) (j : SqlJob) (jm jM : Int)
    (hst : u.status = some "experience_position")
    (hlev : j.experience_levels = some (intervalList jm jM))
    (hj : jm ≤ jM)
    (hab : u.min_experience.getD 0 ≤ u.max_experience.getD 100) :
    sqlFilter1 u j = true
      ↔ (u.min_experience.getD 0 ≤ jM ∧ jm ≤ u.max_experience.getD 100) := by
  have key := @intervalList_overlap (u.min_experience.getD 0) (u.max_experience.getD 100)
    jm jM hab hj
  have e1 : ((some "experience_position" : Option String) == some "student_position")
      = false := by decide
  have e2 : ((some "experience_position" : Option String) == some "no_experience_position")
      = false := by decide
  have e3 : ((some "experience_position" : Option String) == some "experience_position")
      = true := by decide
  simp only [sqlFilter1, hst, hlev, e1, e2, e3, Bool.false_and, Bool.false_or, Bool.true_and,
    ifnull, Option.getD_some]
  exact key

/-- Scanning a list for membership in a singleton is membership of the
singleton element in the list. -/
theorem any_contains_singleton (l : List String) (a : String) :
    l.any (fun x => [a].contains x) = l.contains a := by
  apply bool_eq_of_iff
  simp [List.any_eq_true]

/-! ### Claim theorems -/

/-- C4: the Location evaluator passes when either side is empty, passes when
either side holds the token remote, and otherwise passes exactly when the
two sets intersect. -/
theorem c4_location_evaluator (ul jl : List String) :
    matchesLocation (some ul) (some jl) = true ↔
      (ul = [] ∨ jl = [] ∨ "remote" ∈ ul ∨ "remote" ∈ jl ∨ ∃ x, x ∈ ul ∧ x ∈ jl) := by
  unfold matchesLocation
  by_cases h1 : ul = []
  · simp [h1]
  · by_cases h2 : jl = []
    · simp [h1, h2]
    · by_cases h3 : "remote" ∈ ul
      · simp [h1, h2, h3]
      · by_cases h4 : "remote" ∈ jl
        · simp [h1, h2, h3, h4]
        · simp only [List.isEmpty_eq_true, h1, if_false, h2]
          rw [if_neg (by simp [h3, h4]), List.any_eq_true]
          constructor
          · rintro ⟨x, hx, hc⟩
            exact Or.inr (Or.inr (Or.inr (Or.inr ⟨x, hx, by simpa using hc⟩)))
          · rintro (h | h | h | h | ⟨x, hx1, hx2⟩)
            · exact h.elim
            · exact h.elim
            · exact absurd h h3
            · exact absurd h h4
            · exact ⟨x, hx1, by simpa using hx2⟩

/-- C5: the Domain evaluator passes when either side is empty and otherwise
passes exactly when the two sets share an id. -/
theorem c5_domain_evaluator (ud jd : List String) :
    matchesDomains (some ud) (some jd) = true ↔
      (ud = [] ∨ jd = [] ∨ ∃ x, x ∈ ud ∧ x ∈ jd) := by
  unfold matchesDomains
  by_cases h1 : ud = []
  · simp [h1]
  · by_cases h2 : jd = []
    · simp [h1, h2]
    · simp only [List.isEmpty_eq_true, h1, if_false, h2]
      rw [List.any_eq_true]
      constructor
      · rintro ⟨x, hx, hc⟩
        exact Or.inr (Or.inr ⟨x, hx, by simpa using hc⟩)
      · rintro (h | h | ⟨x, hx1, hx2⟩)
        · exact h.elim
        · exact h.elim
        · exact ⟨x, hx1, by simpa using hx2⟩

/-- C6 counterexample: a student_position user whose managementInterest is
management_and_individual and whose level list holds team_lead is accepted
by the in-process Leadership evaluator for a job WITH a leadership level,
so the evaluator does not behave as the absent row for every
status different from experience_position. -/
theorem c6_counterexample :
    matchesLeadership
        ⟨none, some "student_position", none, none, none, some "management_and_individual",
          some ["team_lead"], some [], some []⟩
        ⟨none, none, none, [], [], 0, 99, false, some "team_lead"⟩ = Except.ok true
      ∧ jsTruthyS (some "team_lead") = true :=
  ⟨rfl, rfl⟩

/-- C6 amended: the SQL leadership filter forces the absent row whenever the
status is present and different from experience_position, but the
in-process matchesLeadership never reads the status: its result depends
only on managementInterest and managementLevel. -/
theorem c6_amended :
    (∀ (st mi : Option String) (ml jl : Option (List String)),
        sqlStatusNotExperience st = true →
        sqlFilter4 st mi ml jl = (ifnull jl).isEmpty)
      ∧ (∀ (u₁ u₂ : UserPrefs) (j : NormalizedJob),
        u₁.managementInterest = u₂.managementInterest →
        u₁.managementLevel = u₂.managementLevel →
        matchesLeadership u₁ j = matchesLeadership u₂ j) := by
  constructor
  · intro st mi ml jl h
    simp [sqlFilter4, h]
  · intro u₁ u₂ j h1 h2
    unfold matchesLeadership
    rw [h1, h2]

/-- C6 witness: the amended SQL fact evaluated at a student user with a
management interest against a leadership job. -/
theorem c6_amended_witness :
    sqlStatusNotExperience (some "student_position") = true
      ∧ sqlFilter4 (some "student_position") (some "management_and_individual")
          (some ["team_lead"]) (some ["team_lead"])
        = (ifnull (some ["team_lead"])).isEmpty :=
  ⟨rfl, c6_amended.1 _ _ _ _ rfl⟩

/-- C10 counterexample: a user with the present but unrecognized
managementInterest open_to_everything and status student_position is
rejected by the SQL leadership filter for a leadership job, so the claimed
unconditional acceptance does not hold for the bulk query. -/
theorem c10_counterexample :
    sqlFilter4 (some "student_position") (some "open_to_everything") none (some ["team_lead"])
      = false := rfl

/-- C10 amended: with a present unrecognized managementInterest, the
in-process evaluator falls through to true for every user and job; the SQL
ELSE TRUE branch gives the same unconditional acceptance only when the
status is experience_position (otherwise the non-experience rule fires
first). -/
theorem c10_amended :
    (∀ (u : UserPrefs) (j : NormalizedJob),
        jsTruthyS u.managementInterest = true →
        u.managementInterest ≠ some "no_management" →
        u.managementInterest ≠ some "management_only" →
        u.managementInterest ≠ some "management_and_individual" →
        matchesLeadership u j = Except.ok true)
      ∧ (∀ (mi : Option String) (ml jl : Option (List String)),
        mi ≠ some "no_management" →
        mi ≠ some "management_only" →
        mi ≠ some "management_and_individual" →
        sqlFilter4 (some "experience_position") mi ml jl = true) := by
  constructor
  · intro u j ht h1 h2 h3
    have e1 : (u.managementInterest == some "no_management") = false :=
      beq_eq_false_iff_ne.mpr h1
    have e2 : (u.managementInterest == some "management_only") = false :=
      beq_eq_false_iff_ne.mpr h2
    have e3 : (u.managementInterest == some "management_and_individual") = false :=
      beq_eq_false_iff_ne.mpr h3
    simp [matchesLeadership, ht, e1, e2, e3]
  · intro mi ml jl h1 h2 h3
    have e0 : sqlStatusNotExperience (some "experience_position") = false := rfl
    have e1 : (mi == some "no_management") = false := beq_eq_false_iff_ne.mpr h1
    have e2 : (mi == some "management_only") = false := beq_eq_false_iff_ne.mpr h2
    have e3 : (mi == some "management_and_individual") = false := beq_eq_false_iff_ne.mpr h3
    simp [sqlFilter4, e0, e1, e2, e3]

/-- C10 witness: both amended facts evaluated at the unrecognized interest
open_to_everything. -/
theorem c10_amended_witness :
    (jsTruthyS (some "open_to_everything") = true
        ∧ matchesLeadership
            ⟨none, some "experience_position", none, none, none, some "open_to_everything",
              none, some [], some []⟩
            ⟨none, none, none, [], [], 0, 99, false, some "team_lead"⟩ = Except.ok true)
      ∧ sqlFilter4 (some "experience_position") (some "open_to_everything") none
          (some ["team_lead"]) = true := by
  refine ⟨⟨rfl, ?_⟩, ?_⟩
  · exact c10_amended.1 _ _ rfl (by decide) (by decide) (by decide)
  · exact c10_amended.2 _ _ _ (by decide) (by decide) (by decide)

/-- C2 counterexample: matchesLeadership throws (TypeError on
managementLevel.includes) when managementLevel is absent, the interest is
management_only and the job has a leadership level; and isMatch throws in
its diagnostic logging when the user domains field is absent. So the
evaluators are not total on records with absent optional fields. -/
theorem c2_counterexample :
    matchesLeadership
        ⟨none, some "experience_position", none, none, none, some "management_only", none,
          some [], some []⟩
        ⟨none, none, none, [], [], 0, 99, false, some "team_lead"⟩ = Except.error ()
      ∧ isMatchN
          ⟨none, some "experience_position", some 0, some 5, none, none, none, none, some []⟩
          ⟨none, none, none, [], [], 0, 99, false, none⟩ = Except.error () :=
  ⟨rfl, rfl⟩

/-- C2 amended: matchesExperience, matchesDomains and matchesLocation are
total boolean functions on all inputs (they are `Bool`-valued here because
the source never dereferences an optional field unguarded); matchesLeadership
throws exactly when managementLevel is absent while the interest is
management_only or management_and_individual and the job has a truthy
leadership level; and the combined isMatchN returns a boolean whenever
domains, locations and managementLevel are present. -/
theorem c2_amended :
    (∀ (u : UserPrefs) (j : NormalizedJob),
        matchesLeadership u j = Except.error ()
          ↔ (u.managementLevel = none
              ∧ (u.managementInterest = some "management_only"
                  ∨ u.managementInterest = some "management_and_individual")
              ∧ jsTruthyS j.leadershipLevel = true))
      ∧ (∀ (u : UserPrefs) (j : NormalizedJob),
        u.domains ≠ none → u.locations ≠ none → u.managementLevel ≠ none →
        ∃ b : Bool, isMatchN u j = Except.ok b) := by
  constructor
  · intro u j
    rcases hmi : u.managementInterest with _ | m
    · simp [matchesLeadership, hmi, jsTruthyS]
    · by_cases hm0 : m = ""
      · subst hm0
        simp [matchesLeadership, hmi, jsTruthyS]
      · by_cases hA : m = "no_management"
        · subst hA
          simp [matchesLeadership, hmi, jsTruthyS]
        · by_cases hB : m = "management_only"
          · subst hB
            rcases hll : j.leadershipLevel with _ | lv
            · simp [matchesLeadership, hmi, hll, jsTruthyS]
            · by_cases hlv : lv = ""
              · subst hlv
                simp [matchesLeadership, hmi, hll, jsTruthyS]
              · rcases hml : u.managementLevel with _ | ls
                · simp [matchesLeadership, hmi, hll, hml, jsTruthyS, hlv]
                · simp [matchesLeadership, hmi, hll, hml, jsTruthyS, hlv]
          · by_cases hC : m = "management_and_individual"
            · subst hC
              rcases hll : j.leadershipLevel with _ | lv
              · simp [matchesLeadership, hmi, hll, jsTruthyS]
              · by_cases hlv : lv = ""
                · subst hlv
                  simp [matchesLeadership, hmi, hll, jsTruthyS]
                · rcases hml : u.managementLevel with _ | ls
                  · simp [matchesLeadership, hmi, hll, hml, jsTruthyS, hlv]
                  · simp [matchesLeadership, hmi, hll, hml, jsTruthyS, hlv]
            · simp [matchesLeadership, hmi, jsTruthyS, hm0, hA, hB, hC]
  · intro u j hd hl hm
    rcases hd' : u.domains with _ | D
    · exact absurd hd' hd
    rcases hl' : u.locations with _ | L
    · exact absurd hl' hl
    rcases hm' : u.managementLevel with _ | ls
    · exact absurd hm' hm
    obtain ⟨b, hb⟩ := matchesLeadership_ok u j ls hm'
    simp only [isMatchN, hd', hl']
    split
    · exact ⟨false, rfl⟩
    · split
      · exact ⟨false, rfl⟩
      · split
        · exact ⟨false, rfl⟩
        · exact ⟨b, hb⟩

/-- C2 witness: a fully-populated record evaluates to a boolean. -/
theorem c2_amended_witness :
    ((some ([] : List String) : Option (List String)) ≠ none)
      ∧ ∃ b : Bool,
        isMatchN
          ⟨none, some "experience_position", some 2, some 5, none, some "no_management",
            some [], some [], some []⟩
          ⟨none, none, none, [], [], 0, 99, false, none⟩ = Except.ok b :=
  ⟨by decide, c2_amended.2 _ _ (by decide) (by decide) (by decide)⟩

/-- C9 counterexample: against the job with experience text 0-3, the
in-process pipeline rejects the swapped bounds min=5/max=2 but accepts the
ordered bounds min=2/max=5, so the two preference records do not produce
the same match outcome in the row-at-a-time path. -/
theorem c9_counterexample :
    isMatch
        ⟨none, some "experience_position", some 5, some 2, none, some "no_management",
          some [], some [], some []⟩
        ⟨none, none, none, none, none, some "0-3", none⟩ = Except.ok false
      ∧ isMatch
          ⟨none, some "experience_position", some 2, some 5, none, some "no_management",
            some [], some [], some []⟩
          ⟨none, none, none, none, none, some "0-3", none⟩ = Except.ok true :=
  ⟨rfl, rfl⟩

/-- C9 amended: only the bulk query normalizes the bounds. Its
UserPreferences CTE applies LEAST/GREATEST, which is symmetric in the two
raw bounds and restores min at most max, so in the SQL path swapped inputs
yield identical rows and hence identical match outcomes; the in-process
matchesExperience uses the bounds as given (see the counterexample). -/
theorem c9_amended :
    (∀ a b : Int,
        sqlLeast (some a) (some b) = some (min a b)
          ∧ sqlGreatest (some a) (some b) = some (max a b)
          ∧ min a b ≤ max a b)
      ∧ (∀ a b : Option Int, sqlLeast a b = sqlLeast b a ∧ sqlGreatest a b = sqlGreatest b a)
      ∧ (∀ (st degree mi : Option String) (ml dom loc : Option (List String))
          (a b : Option Int) (j : SqlJob),
        sqlPotentialMatch ⟨st, sqlLeast a b, sqlGreatest a b, degree, mi, ml, dom, loc⟩ j
          = sqlPotentialMatch ⟨st, sqlLeast b a, sqlGreatest b a, degree, mi, ml, dom, loc⟩ j) := by
  refine ⟨?_, ?_, ?_⟩
  · intro a b
    exact ⟨rfl, rfl, min_le_max⟩
  · intro a b
    constructor
    · rcases a with _ | x <;> rcases b with _ | y <;> simp [sqlLeast, min_comm]
    · rcases a with _ | x <;> rcases b with _ | y <;> simp [sqlGreatest, max_comm]
  · intro st degree mi ml dom loc a b j
    have h1 : sqlLeast a b = sqlLeast b a := by
      rcases a with _ | x <;> rcases b with _ | y <;> simp [sqlLeast, min_comm]
    have h2 : sqlGreatest a b = sqlGreatest b a := by
      rcases a with _ | x <;> rcases b with _ | y <;> simp [sqlGreatest, max_comm]
    rw [h1, h2]

/-- C3 counterexample: for the job parsed from 0-3 (whose acceptable range
includes 0), the in-process evaluator rejects a no_experience_position user
with absent bounds (the claim demands acceptance, and the bulk query does
accept the corresponding pair), and also rejects an experience_position
user whose lower bound is absent instead of treating it as open. -/
theorem c3_counterexample :
    matchesExperience
        ⟨none, some "no_experience_position", none, none, none, none, none, some [], some []⟩
        (normalizeJob ⟨none, none, none, none, none, some "0-3", none⟩) = false
      ∧ (normalizeJob ⟨none, none, none, none, none, some "0-3", none⟩).minExp = 0
      ∧ sqlFilter1 ⟨some "no_experience_position", none, none, none, none, none, none, none⟩
          (sqlJobOf (normalizeJob ⟨none, none, none, none, none, some "0-3", none⟩)) = true
      ∧ matchesExperience
          ⟨none, some "experience_position", none, some 10, none, none, none, some [], some []⟩
          (normalizeJob ⟨none, none, none, none, none, some "0-3", none⟩) = false :=
  ⟨rfl, rfl, by decide, rfl⟩

/-- C3 amended: the bulk query satisfies the claim (no_experience passes iff
0 is in the level set; the experienced branch over a contiguous level set
with COALESCE defaults is exactly interval overlap). The in-process
matchesExperience applies the raw interval test for every non-student
status, and an absent user bound makes it false rather than open. -/
theorem c3_amended :
    (∀ (u : SqlUserRow) (j : SqlJob),
        u.status = some "no_experience_position" →
        (sqlFilter1 u j = true ↔ (0 : Int) ∈ ifnull j.experience_levels))
      ∧ (∀ (u : SqlUserRow) (j : SqlJob) (jm jM : Int),
        u.status = some "experience_position" →
        j.experience_levels = some (intervalList jm jM) →
        jm ≤ jM →
        u.min_experience.getD 0 ≤ u.max_experience.getD 100 →
        (sqlFilter1 u j = true
          ↔ (u.min_experience.getD 0 ≤ jM ∧ jm ≤ u.max_experience.getD 100)))
      ∧ (∀ (u : UserPrefs) (j : NormalizedJob) (a b : Int),
        u.status = some "experience_position" →
        u.minExperience = some a → u.maxExperience = some b →
        (matchesExperience u j = true
          ↔ (a ≤ Int.ofNat j.maxExp ∧ Int.ofNat j.minExp ≤ b)))
      ∧ (∀ (u : UserPrefs) (j : NormalizedJob),
        u.status ≠ some "student_position" →
        (u.minExperience = none ∨ u.maxExperience = none) →
        matchesExperience u j = false) := by
  refine ⟨?_, ?_, ?_, ?_⟩
  · intro u j h
    simp [sqlFilter1, h]
  · intro u j jm jM hst hlev hj hab
    exact sqlFilter1_expPos u j jm jM hst hlev hj hab
  · intro u j a b hst ha hb
    exact matchesExperience_expPos u j a b hst ha hb
  · intro u j hst h
    have e : (u.status == some "student_position") = false := beq_eq_false_iff_ne.mpr hst
    rcases h with h | h
    · simp [matchesExperience, e, h, jsLeOpt]
    · simp [matchesExperience, e, h, jsLeOpt, jsGeOpt]

/-- C3 witness: the amended experienced-branch equivalence evaluated at
bounds 2..5 against the contiguous level set 0..3. -/
theorem c3_amended_witness :
    sqlFilter1 ⟨some "experience_position", some 2, some 5, none, none, none, none, none⟩
      ⟨none, none, some (intervalList 0 3), none, none, none⟩ = true := by
  have h := c3_amended.2.1
    ⟨some "experience_position", some 2, some 5, none, none, none, none, none⟩
    ⟨none, none, some (intervalList 0 3), none, none, none⟩ 0 3 rfl rfl (by decide) (by decide)
  exact h.mpr (by decide)

/-- C7: the final SELECT notifies exactly when there is no prior send or the
day difference strictly exceeds the per-status threshold (3 for students
and no-experience users, 14 for experienced users); the boundary values 3,
4, 14 and 15 behave as the claim states; and the older query variant has
the same throttle. -/
theorem c7_throttle (st : String) (d : Option Int)
    (h : st = "student_position" ∨ st = "no_experience_position"
        ∨ st = "experience_position") :
    (sqlShouldNotify (some st) d = true
        ↔ (d = none
            ∨ ∃ k : Int, d = some k
                ∧ (if st = "experience_position" then (14 : Int) else 3) < k))
      ∧ (∀ (s : Option String) (dd : Option Int), sqlShouldNotifyAlt s dd = sqlShouldNotify s dd)
      ∧ sqlShouldNotify (some "student_position") (some 3) = false
      ∧ sqlShouldNotify (some "student_position") (some 4) = true
      ∧ sqlShouldNotify (some "no_experience_position") (some 3) = false
      ∧ sqlShouldNotify (some "no_experience_position") (some 4) = true
      ∧ sqlShouldNotify (some "experience_position") (some 14) = false
      ∧ sqlShouldNotify (some "experience_position") (some 15) = true := by
  refine ⟨?_, ?_, by decide, by decide, by decide, by decide, by decide, by decide⟩
  · rcases d with _ | k
    · simp [sqlShouldNotify]
    · rcases h with h | h | h <;> subst h <;> simp [sqlShouldNotify]
  · intro s dd
    rfl

/-- C7 witness: an experienced user is re-notified at a 15-day difference. -/
theorem c7_throttle_witness :
    sqlShouldNotify (some "experience_position") (some 15) = true :=
  (c7_throttle "experience_position" (some 15)
      (Or.inr (Or.inr rfl))).1.mpr (Or.inr ⟨15, rfl, by decide⟩)

/-- C8: on a truthy experience text, the normalizer applies exactly the
first matching numeric pattern in the order range, plus, single digit,
with defaults 0 and 99 otherwise, and sets the student flag from the
degree markers independently of which numeric branch fires. -/
theorem c8_normalizer (r : RawJob) (s : String)
    (hs : r.experience_level = some s) (hne : s ≠ "") :
    ((normalizeJob r).isStudentJob
        = (containsSub ("B.Sc".toList) s.toList || containsSub ("M.Sc".toList) s.toList))
      ∧ (∀ lo hi, findRange s.toList = some (lo, hi) →
          (normalizeJob r).minExp = lo ∧ (normalizeJob r).maxExp = hi)
      ∧ (findRange s.toList = none → ∀ n, findPlus s.toList = some n →
          (normalizeJob r).minExp = n ∧ (normalizeJob r).maxExp = 99)
      ∧ (findRange s.toList = none → findPlus s.toList = none →
          ∀ n, findSingle s.toList = some n →
          (normalizeJob r).minExp = n ∧ (normalizeJob r).maxExp = n)
      ∧ (findRange s.toList = none → findPlus s.toList = none → findSingle s.toList = none →
          (normalizeJob r).minExp = 0 ∧ (normalizeJob r).maxExp = 99) := by
  refine ⟨?_, ?_, ?_, ?_, ?_⟩
  · simp only [normalizeJob, hs]
    rw [if_neg hne]
    rcases hr : findRange s.toList with _ | p
    · rcases hp : findPlus s.toList with _ | n
      · rcases hq : findSingle s.toList with _ | n
        · rfl
        · rfl
      · rfl
    · rcases p with ⟨lo, hi⟩
      rfl
  · intro lo hi hr
    simp only [normalizeJob, hs]
    rw [if_neg hne, hr]
    exact ⟨rfl, rfl⟩
  · intro hr n hp
    simp only [normalizeJob, hs]
    rw [if_neg hne, hr, hp]
    exact ⟨rfl, rfl⟩
  · intro hr hp n hq
    simp only [normalizeJob, hs]
    rw [if_neg hne, hr, hp, hq]
    exact ⟨rfl, rfl⟩
  · intro hr hp hq
    simp only [normalizeJob, hs]
    rw [if_neg hne, hr, hp, hq]
    exact ⟨rfl, rfl⟩

/-- C8 witness: the text B.Sc 1-3 sets the student flag and parses the
range 1..3 through the range pattern. -/
theorem c8_normalizer_witness :
    (normalizeJob ⟨none, none, none, none, none, some "B.Sc 1-3", none⟩).minExp = 1
      ∧ (normalizeJob ⟨none, none, none, none, none, some "B.Sc 1-3", none⟩).maxExp = 3
      ∧ (normalizeJob ⟨none, none, none, none, none, some "B.Sc 1-3", none⟩).isStudentJob
          = true := by
  have h := c8_normalizer ⟨none, none, none, none, none, some "B.Sc 1-3", none⟩ "B.Sc 1-3"
    rfl (by decide)
  have hr : findRange ("B.Sc 1-3".toList) = some (1, 3) := by decide
  refine ⟨(h.2.1 1 3 hr).1, (h.2.1 1 3 hr).2, ?_⟩
  rw [h.1]
  decide

/-- C1 counterexample: the row-at-a-time logic and the bulk query disagree
on concrete pairs (the SQL row is the UserPreferences CTE of the same
preference record and the SQL job presents the same normalized job).
The six instances:
1. a user with an EMPTY locations list passes in-process, fails the query;
2. a user listing only berlin against a job with no locations passes
   in-process, fails the query;
3. a user listing the domain software against a job with no domains passes
   in-process, fails the query;
4. a no_experience_position user with absent bounds fails in-process but
   passes the query (which tests membership of 0);
5. an experience_position user with ABSENT managementInterest fails
   in-process against a leadership job but passes the query (NULL skips
   every WHEN, reaching ELSE TRUE);
6. swapped user bounds 5/2 fail in-process but pass the query (LEAST and
   GREATEST reorder them). -/
theorem c1_counterexample :
    (isMatch
        ⟨none, some "experience_position", some 2, some 5, none, some "no_management",
          some [], some [], some []⟩
        ⟨none, none, none, none, none, some "3-4", none⟩ = Except.ok true
      ∧ sqlPotentialMatch
          (sqlRowOf
            ⟨none, some "experience_position", some 2, some 5, none, some "no_management",
              some [], some [], some []⟩)
          (sqlJobOf (normalizeJob ⟨none, none, none, none, none, some "3-4", none⟩)) = false)
    ∧ (isMatch
        ⟨none, some "experience_position", some 2, some 5, none, some "no_management",
          some [], some [], some ["berlin"]⟩
        ⟨none, none, none, none, none, some "3-4", none⟩ = Except.ok true
      ∧ sqlPotentialMatch
          (sqlRowOf
            ⟨none, some "experience_position", some 2, some 5, none, some "no_management",
              some [], some [], some ["berlin"]⟩)
          (sqlJobOf (normalizeJob ⟨none, none, none, none, none, some "3-4", none⟩)) = false)
    ∧ (isMatch
        ⟨none, some "experience_position", some 2, some 5, none, some "no_management",
          some [], some ["software"], some ["remote"]⟩
        ⟨none, none, none, none, none, some "3-4", none⟩ = Except.ok true
      ∧ sqlPotentialMatch
          (sqlRowOf
            ⟨none, some "experience_position", some 2, some 5, none, some "no_management",
              some [], some ["software"], some ["remote"]⟩)
          (sqlJobOf (normalizeJob ⟨none, none, none, none, none, some "3-4", none⟩)) = false)
    ∧ (isMatch
        ⟨none, some "no_experience_position", none, none, none, none, none,
          some [], some ["remote"]⟩
        ⟨none, none, none, none, none, some "0-3", none⟩ = Except.ok false
      ∧ sqlPotentialMatch
          (sqlRowOf
            ⟨none, some "no_experience_position", none, none, none, none, none,
              some [], some ["remote"]⟩)
          (sqlJobOf (normalizeJob ⟨none, none, none, none, none, some "0-3", none⟩)) = true)
    ∧ (isMatch
        ⟨none, some "experience_position", some 2, some 5, none, none, none,
          some [], some ["remote"]⟩
        ⟨none, none, none, none, none, some "3-4", some "Team Lead"⟩ = Except.ok false
      ∧ sqlPotentialMatch
          (sqlRowOf
            ⟨none, some "experience_position", some 2, some 5, none, none, none,
              some [], some ["remote"]⟩)
          (sqlJobOf (normalizeJob
            ⟨none, none, none, none, none, some "3-4", some "Team Lead"⟩)) = true)
    ∧ (isMatch
        ⟨none, some "experience_position", some 5, some 2, none, some "no_management",
          some [], some [], some ["remote"]⟩
        ⟨none, none, none, none, none, some "3-4", none⟩ = Except.ok false
      ∧ sqlPotentialMatch
          (sqlRowOf
            ⟨none, some "experience_position", some 5, some 2, none, some "no_management",
              some [], some [], some ["remote"]⟩)
          (sqlJobOf (normalizeJob ⟨none, none, none, none, none, some "3-4", none⟩)) = true) :=
  ⟨⟨rfl, by decide⟩, ⟨rfl, by decide⟩, ⟨rfl, by decide⟩, ⟨rfl, by decide⟩, ⟨rfl, by decide⟩,
    ⟨rfl, by decide⟩⟩

/-- C1 amended: the two strategies agree only on a restricted class of
pairs: an experience_position user with both bounds present and ordered,
a non-empty locations list, a present domains list, a present non-empty
managementInterest and a present managementLevel list, evaluated against a
job with ordered experience bounds, a non-empty location set and a domain
set that is non-empty unless the user is domain-open; there the in-process
result equals the PotentialMatches filter of the master query on the
corresponding CTE row and view row. The throttle stages of the two query
variants are identical functions of status and day difference. -/
theorem c1_amended :
    (∀ (u : UserPrefs) (n : NormalizedJob) (a b : Int) (L D mls : List String) (m : String),
      u.status = some "experience_position" →
      u.minExperience = some a →
      u.maxExperience = some b →
      a ≤ b →
      u.locations = some L →
      L ≠ [] →
      u.domains = some D →
      u.managementInterest = some m →
      m ≠ "" →
      u.managementLevel = some mls →
      n.minExp ≤ n.maxExp →
      n.locations ≠ [] →
      (D = [] ∨ n.domains ≠ []) →
      isMatchN u n = Except.ok (sqlPotentialMatch (sqlRowOf u) (sqlJobOf n)))
      ∧ (∀ (s : Option String) (dd : Option Int),
        sqlShouldNotifyAlt s dd = sqlShouldNotify s dd) := by
  constructor
  · intro u n a b L D mls m hst ha hb hab hL hLne hD hm hmne hml hexp hnloc hdom
    have r1 : (sqlRowOf u).status = some "experience_position" := by
      simp [sqlRowOf, hst]
    have r2 : (sqlRowOf u).min_experience = some a := by
      simp [sqlRowOf, ha, hb, sqlLeast, min_eq_left hab]
    have r3 : (sqlRowOf u).max_experience = some b := by
      simp [sqlRowOf, ha, hb, sqlGreatest, max_eq_right hab]
    have r4 : (sqlRowOf u).management_interest = some m := by simp [sqlRowOf, hm]
    have r5 : (sqlRowOf u).management_level = some mls := by simp [sqlRowOf, hml]
    have r6 : (sqlRowOf u).domains = some D := by simp [sqlRowOf, hD]
    have r7 : (sqlRowOf u).locations = some L := by simp [sqlRowOf, hL]
    obtain ⟨lb, hlb⟩ := matchesLeadership_ok u n mls hml
    have hJS : isMatchN u n
        = Except.ok (matchesDomains (some D) (some n.domains)
            && (matchesExperience u n
            && (matchesLocation (some L) (some n.locations) && lb))) := by
      simp only [isMatchN, hD, hL]
      cases hc1 : matchesDomains (some D) (some n.domains) with
      | false => simp [hc1]
      | true =>
        cases hc2 : matchesExperience u n with
        | false => simp [hc1, hc2]
        | true =>
          cases hc3 : matchesLocation (some L) (some n.locations) with
          | false => simp [hc1, hc2, hc3]
          | true => simp [hc1, hc2, hc3, hlb]
    have eqD : matchesDomains (some D) (some n.domains) = sqlFilter3 (sqlRowOf u) (sqlJobOf n) := by
      by_cases hDe : D = []
      · subst hDe
        simp [matchesDomains, sqlFilter3, r6, ifnull]
      · have hnd : n.domains ≠ [] := hdom.resolve_left hDe
        simp only [matchesDomains, sqlFilter3, r6, sqlJobOf, ifnull, Option.getD_some]
        rw [if_neg (by simp [hDe]), if_neg (by simp [hnd])]
        have hbn : ((some D : Option (List String)) == none) = false := rfl
        simp [hbn, hDe]
    have hq : (sqlJobOf n).experience_levels
        = some (intervalList (Int.ofNat n.minExp) (Int.ofNat n.maxExp)) := rfl
    have habI : Int.ofNat n.minExp ≤ Int.ofNat n.maxExp := Int.ofNat_le.mpr hexp
    have hab2 : (sqlRowOf u).min_experience.getD 0 ≤ (sqlRowOf u).max_experience.getD 100 := by
      rw [r2, r3]
      simpa using hab
    have eqE : matchesExperience u n = sqlFilter1 (sqlRowOf u) (sqlJobOf n) := by
      apply bool_eq_of_iff
      rw [matchesExperience_expPos u n a b hst ha hb,
        sqlFilter1_expPos (sqlRowOf u) (sqlJobOf n) (Int.ofNat n.minExp) (Int.ofNat n.maxExp)
          r1 hq habI hab2, r2, r3]
      simp
    have eqL : matchesLocation (some L) (some n.locations)
        = sqlFilter2 (sqlRowOf u) (sqlJobOf n) := by
      simp only [matchesLocation, sqlFilter2, r7, sqlJobOf, ifnull, Option.getD_some]
      rw [if_neg (by simp [hLne]), if_neg (by simp [hnloc])]
      by_cases hrem : (L.contains "remote" || n.locations.contains "remote") = true
      · rw [if_pos hrem]
        have hrem2 : "remote" ∈ L ∨ "remote" ∈ n.locations := by simpa using hrem
        symm
        rw [List.any_eq_true]
        rcases hrem2 with h | h
        · exact ⟨"remote", h, by simp⟩
        · obtain ⟨x, hx⟩ := List.exists_mem_of_ne_nil L hLne
          exact ⟨x, hx, by simp [h]⟩
      · rw [if_neg hrem]
        have hru : "remote" ∉ L := by
          intro hmem
          exact hrem (by simp [hmem])
        have hrj : "remote" ∉ n.locations := by
          intro hmem
          exact hrem (by simp [hmem])
        apply bool_eq_of_iff
        rw [List.any_eq_true, List.any_eq_true]
        constructor
        · rintro ⟨x, hx, hpx⟩
          have hx0 : x ∈ n.locations := by simpa using hpx
          exact ⟨x, hx, by simp [hx0]⟩
        · rintro ⟨x, hx, hpx⟩
          refine ⟨x, hx, ?_⟩
          have hx1 : (x == "remote") = false :=
            beq_eq_false_iff_ne.mpr (by rintro rfl; exact hru hx)
          simpa [hx1, hrj] using hpx
    have jlead : (sqlJobOf n).leadership_levels = some (leadershipListOf n) := rfl
    have s1 : sqlStatusNotExperience (some "experience_position") = false := rfl
    have eqLead : lb = sqlFilter4 (sqlRowOf u).status (sqlRowOf u).management_interest
        (sqlRowOf u).management_level (sqlJobOf n).leadership_levels := by
      rw [r1, r4, r5, jlead]
      by_cases hm1 : m = "no_management"
      · subst hm1
        have hcalc : matchesLeadership u n = Except.ok (!(jsTruthyS n.leadershipLevel)) := by
          simp [matchesLeadership, hm]
        have hlb2 : lb = !(jsTruthyS n.leadershipLevel) :=
          (Except.ok.inj (hcalc.symm.trans hlb)).symm
        rw [hlb2]
        simp [sqlFilter4, s1, ifnull, leadershipListOf_isEmpty]
      · by_cases hm2 : m = "management_only"
        · subst hm2
          rcases hll : n.leadershipLevel with _ | lv
          · have hcalc : matchesLeadership u n = Except.ok false := by
              simp [matchesLeadership, hm, hll, jsTruthyS]
            have hlb2 : lb = false := (Except.ok.inj (hcalc.symm.trans hlb)).symm
            rw [hlb2]
            have hLL : leadershipListOf n = [] := by simp [leadershipListOf, hll]
            simp [sqlFilter4, s1, ifnull, hLL]
          · by_cases hlv : lv = ""
            · subst hlv
              have hcalc : matchesLeadership u n = Except.ok false := by
                simp [matchesLeadership, hm, hll, jsTruthyS]
              have hlb2 : lb = false := (Except.ok.inj (hcalc.symm.trans hlb)).symm
              rw [hlb2]
              have hLL : leadershipListOf n = [] := by simp [leadershipListOf, hll]
              simp [sqlFilter4, s1, ifnull, hLL]
            · have hcalc : matchesLeadership u n = Except.ok (mls.contains lv) := by
                simp [matchesLeadership, hm, hml, hll, jsTruthyS, hlv]
              have hlb2 : lb = mls.contains lv := (Except.ok.inj (hcalc.symm.trans hlb)).symm
              rw [hlb2]
              have hLL : leadershipListOf n = [lv] := by simp [leadershipListOf, hll, hlv]
              simp [sqlFilter4, s1, ifnull, hLL, any_contains_singleton]
              apply bool_eq_of_iff
              simp
        · by_cases hm3 : m = "management_and_individual"
          · subst hm3
            rcases hll : n.leadershipLevel with _ | lv
            · have hcalc : matchesLeadership u n = Except.ok true := by
                simp [matchesLeadership, hm, hll, jsTruthyS]
              have hlb2 : lb = true := (Except.ok.inj (hcalc.symm.trans hlb)).symm
              rw [hlb2]
              have hLL : leadershipListOf n = [] := by simp [leadershipListOf, hll]
              simp [sqlFilter4, s1, ifnull, hLL]
            · by_cases hlv : lv = ""
              · subst hlv
                have hcalc : matchesLeadership u n = Except.ok true := by
                  simp [matchesLeadership, hm, hll, jsTruthyS]
                have hlb2 : lb = true := (Except.ok.inj (hcalc.symm.trans hlb)).symm
                rw [hlb2]
                have hLL : leadershipListOf n = [] := by simp [leadershipListOf, hll]
                simp [sqlFilter4, s1, ifnull, hLL]
              · have hcalc : matchesLeadership u n = Except.ok (mls.contains lv) := by
                  simp [matchesLeadership, hm, hml, hll, jsTruthyS, hlv]
                have hlb2 : lb = mls.contains lv :=
                  (Except.ok.inj (hcalc.symm.trans hlb)).symm
                rw [hlb2]
                have hLL : leadershipListOf n = [lv] := by simp [leadershipListOf, hll, hlv]
                simp [sqlFilter4, s1, ifnull, hLL, any_contains_singleton]
                apply bool_eq_of_iff
                simp
          · have e0 : jsTruthyS u.managementInterest = true := by simp [hm, jsTruthyS, hmne]
            have e1 : (u.managementInterest == some "no_management") = false := by
              simp [hm, hm1]
            have e2 : (u.managementInterest == some "management_only") = false := by
              simp [hm, hm2]
            have e3 : (u.managementInterest == some "management_and_individual") = false := by
              simp [hm, hm3]
            have hcalc : matchesLeadership u n = Except.ok true := by
              simp [matchesLeadership, e0, e1, e2, e3]
            have hlb2 : lb = true := (Except.ok.inj (hcalc.symm.trans hlb)).symm
            rw [hlb2]
            have f1 : ((some m : Option String) == some "no_management") = false := by
              simp [hm1]
            have f2 : ((some m : Option String) == some "management_only") = false := by
              simp [hm2]
            have f3 : ((some m : Option String) == some "management_and_individual") = false := by
              simp [hm3]
            simp [sqlFilter4, s1, f1, f2, f3]
    rw [hJS]
    congr 1
    rw [eqD, eqE, eqL, eqLead]
    simp only [sqlPotentialMatch]
    cases sqlFilter1 (sqlRowOf u) (sqlJobOf n) <;>
      cases sqlFilter2 (sqlRowOf u) (sqlJobOf n) <;>
      cases sqlFilter3 (sqlRowOf u) (sqlJobOf n) <;>
      cases sqlFilter4 (sqlRowOf u).status (sqlRowOf u).management_interest
        (sqlRowOf u).management_level (sqlJobOf n).leadership_levels <;>
      simp
  · intro s dd
    rfl

/-- C1 witness: the agreement theorem evaluated on a fully populated
experience_position user against a matching job. -/
theorem c1_amended_witness :
    ((2 : Int) ≤ 5 ∧ (3 : Nat) ≤ 4)
      ∧ isMatchN
          ⟨none, some "experience_position", some 2, some 5, none, some "no_management",
            some [], some ["software"], some ["tel_aviv"]⟩
          ⟨none, none, none, ["tel_aviv"], ["software"], 3, 4, false, none⟩
        = Except.ok
            (sqlPotentialMatch
              (sqlRowOf
                ⟨none, some "experience_position", some 2, some 5, none, some "no_management",
                  some [], some ["software"], some ["tel_aviv"]⟩)
              (sqlJobOf ⟨none, none, none, ["tel_aviv"], ["software"], 3, 4, false, none⟩)) :=
  ⟨⟨by decide, by decide⟩,
    c1_amended.1
      ⟨none, some "experience_position", some 2, some 5, none, some "no_management",
        some [], some ["software"], some ["tel_aviv"]⟩
      ⟨none, none, none, ["tel_aviv"], ["software"], 3, 4, false, none⟩
      2 5 ["tel_aviv"] ["software"] [] "no_management"
      rfl rfl rfl (by decide) rfl (by decide) rfl rfl (by decide) rfl (by decide) (by decide)
      (Or.inr (by decide))⟩

end JobMatcher
